import Mathlib

/-!
Verification of the EcoGis spatial partitioning tool (src/ecogis.py).

Coordinates are modelled as rationals (OGR extents/envelopes are numeric
tuples); Python's floor division `//` is `Int.floor` of exact division,
and Python's true division `/` is exact rational division.  Fallible
Python code (exceptions) is modelled with `Except String`.
-/

attribute [local semireducible] Rat.add Rat.sub Rat.mul Rat.inv

deriving instance DecidableEq for Except

namespace EcoGis

/-- A 4-tuple of bounds `(minX, maxX, minY, maxY)` as returned by OGR's
`GetExtent` / `GetEnvelope`, and as stored in `self.partitions`. -/
structure Box where
  minX : ℚ
  maxX : ℚ
  minY : ℚ
  maxY : ℚ
deriving DecidableEq, Repr

/-- Python floor division `a // b` on numbers. -/
def fdiv (a b : ℚ) : ℚ := (⌊a / b⌋ : ℚ)

/-- A source layer as the core reads it: its name (`GetName`), its extent
(`GetExtent`), and for each feature index the geometry envelope
(`GetEnvelope`), `none` standing for a NULL geometry. -/
structure OgrLayer where
  name : String
  extent : Box
  features : List (Option Box)
deriving DecidableEq

/-- State of a `LatLonPartition` object: the requested count, the layer
set by `set_layer`, and the memoized `self.partitions`. -/
structure LatLonPartition where
  count : ℤ
  layer : Option OgrLayer := none
  partitions : Option (List Box) := none
deriving DecidableEq

/-- `Partition.set_layer` (ecogis.py line 29). -/
def set_layer (p : LatLonPartition) (l : OgrLayer) : LatLonPartition :=
  { p with layer := some l }

/-- `LatLonPartition.partition_to_layer_name` (line 61):
`f"{self.layer.GetName()}:{part[0]}-{part[1]}-{part[2]}-{part[3]}"`. -/
def partName (layerName : String) (p : Box) : String :=
  layerName ++ ":" ++ toString p.minX ++ "-" ++ toString p.maxX ++ "-"
    ++ toString p.minY ++ "-" ++ toString p.maxY

/-- The tile list built by `LatLonPartition.create_partitions` (lines 73-104)
from the extent and the count, as a pure function.  Python raises
`ZeroDivisionError` when a `//` divisor is zero, modelled as an error. -/
def buildParts (count : ℤ) (e : Box) : Except String (List Box) :=
  if count = 1 then
    Except.ok [e]
  else if count = 2 then
    Except.ok [⟨e.minX, e.maxX / 2, e.minY, e.maxY⟩,
               ⟨e.maxX / 2, e.maxX, e.minY, e.maxY⟩]
  else
    let top : ℤ := ⌈(count : ℚ) / 2⌉
    let bottom : ℤ := ⌊(count : ℚ) / 2⌋
    if top = 0 then Except.error "ZeroDivisionError"
    else
      let dt : ℤ := ⌊(e.maxX - e.minX) / (top : ℚ)⌋
      if bottom = 0 then Except.error "ZeroDivisionError"
      else
        let db : ℤ := ⌊(e.maxX - e.minX) / (bottom : ℚ)⌋
        Except.ok
          (((List.range top.toNat).map fun x : ℕ =>
              (⟨e.minX + (x : ℚ) * (dt : ℚ), e.minX + (dt : ℚ) * ((x : ℚ) + 1),
                e.minY, fdiv (e.maxY - e.minY) 2 + e.minY⟩ : Box)) ++
           ((List.range bottom.toNat).map fun x : ℕ =>
              (⟨e.minX + (x : ℚ) * (db : ℚ), e.minX + (db : ℚ) * ((x : ℚ) + 1),
                fdiv (e.maxY - e.minY) 2 + e.minY, e.maxY⟩ : Box)))

/-- `LatLonPartition.create_partitions` (lines 64-71) as a state
transition: no layer set or already-memoized partitions leave the state
untouched; otherwise the tiles are computed from the layer extent. -/
def create_partitions (p : LatLonPartition) : Except String LatLonPartition :=
  match p.layer with
  | none => Except.ok p
  | some l =>
    match p.partitions with
    | some _ => Except.ok p
    | none => (buildParts p.count l.extent).map fun parts =>
      { p with partitions := some parts }

/-- The membership test of the classification loop (line 130):
`pMinX < x <= pMaxX and pMinY < y <= pMaxY`. -/
def inTileB (p : Box) (x y : ℚ) : Bool :=
  decide (p.minX < x) && decide (x ≤ p.maxX) &&
  decide (p.minY < y) && decide (y ≤ p.maxY)

/-- Classification of one feature envelope by `LatLonPartition.__call__`
(lines 115-136), returning the assigned key (`none` = the `(None, None)`
yield for a NULL geometry) together with the warning messages logged.
The representative point is the floor-divided envelope midpoint; the
first tile in declaration order passing `inTileB` wins; with no match the
feature is shoved into the last tile (`self.partitions[-1]`; Python would
raise `IndexError` on an empty scheme, modelled by `getLast?`). -/
def classifyWithLogs (parts : List Box) (layerName : String)
    (env : Option Box) : Option String × List String :=
  match env with
  | none => (none, ["Found a NULL geometry"])
  | some e =>
    let x := fdiv (e.minX + e.maxX) 2
    let y := fdiv (e.minY + e.maxY) 2
    match parts.find? (fun p => inTileB p x y) with
    | some p => (some (partName layerName p), [])
    | none => (parts.getLast?.map (partName layerName), [])

/-- Just the assigned key of `classifyWithLogs`. -/
def classifyFeature (parts : List Box) (layerName : String)
    (env : Option Box) : Option String :=
  (classifyWithLogs parts layerName env).1

/-- `LatLonPartition.layer_names` (lines 106-109): builds the partitions,
then names every tile from the currently set layer's name.  Iterating
`self.partitions` while it is still `None` (layer never set) raises
`TypeError` in Python. -/
def layer_names (p : LatLonPartition) :
    Except String (List String × LatLonPartition) :=
  (create_partitions p).bind fun q =>
    match q.partitions, q.layer with
    | some parts, some l => Except.ok (parts.map (partName l.name), q)
    | _, _ => Except.error "TypeError"

/-- One step of `LatLonPartition.__call__` (lines 111-136): build the
partitions (memoized), then classify one feature envelope against them
under the current layer's name. -/
def call_classify (p : LatLonPartition) (env : Option Box) :
    Except String (Option String × List String) :=
  (create_partitions p).bind fun q =>
    match q.partitions, q.layer with
    | some parts, some l => Except.ok (classifyWithLogs parts l.name env)
    | _, _ => Except.error "TypeError"

/-- The indices of the features that `Layer.partition`'s loop (lines
169-178) appends to the output collection keyed `key`: feature `fidx` is
fetched by index, classified, and written to `partitions[key]` when its
key matches.  Insertion order is iteration order. -/
def layerBuckets (parts : List Box) (layerName : String)
    (feats : List (Option Box)) (key : String) : List ℕ :=
  (List.range feats.length).filter fun i =>
    decide (classifyFeature parts layerName (feats.getD i none) = some key)

/-- Insertion-ordered key set of a Python dict built by repeated
assignment: first occurrence fixes the position (lines 152-167 build
`partitions` keyed by `partition.layer_names()`). -/
def pyDictKeys (l : List String) : List String :=
  l.foldl (fun acc k => if k ∈ acc then acc else acc ++ [k]) []

/-- The file-system state `Layer.partition` touches: existing directories
and the per-path written feature indices. -/
structure FS where
  dirs : List String
  files : List (String × List ℕ)
deriving DecidableEq

/-- `Layer.partition` (lines 143-183).  If the target directory exists it
logs an error and returns `[]` before touching anything (lines 144-147).
Otherwise it creates the directory, sets the layer on the partition
object, creates one output file per tile key (lines 149-167), streams
every feature through the classifier into its bucket (lines 169-178),
syncs, and returns the dict's keys.  Result: written keys, new
file-system state, error log. -/
def Layer_partition (lay : OgrLayer) (p : LatLonPartition) (dirName : String)
    (fs : FS) : Except String (List String × FS × List String) :=
  if dirName ∈ fs.dirs then
    Except.ok ([], fs, [dirName ++ " already exists"])
  else
    (create_partitions (set_layer p lay)).bind fun q =>
      match q.partitions with
      | none => Except.error "TypeError"
      | some parts =>
        let keys := pyDictKeys (parts.map (partName lay.name))
        Except.ok (keys,
          { dirs := fs.dirs ++ [dirName],
            files := fs.files ++ keys.map fun k =>
              (dirName ++ "/" ++ k ++ ".fgb",
               layerBuckets parts lay.name lay.features k) },
          [])

/-- Observable events of `Layer.partition`, in program order: creating a
tile's output file, classifying feature `i`, appending feature `i` to the
file keyed `k` (`CreateFeature`), flushing the file keyed `k`
(`SyncToDisk`). -/
inductive Ev where
  | create (k : String)
  | classify (i : ℕ)
  | write (i : ℕ) (k : String)
  | sync (k : String)
deriving DecidableEq, Repr

/-- The event trace of `Layer.partition` past the directory check: all
output files are created first (lines 152-167); then the generator
`partition()` is consumed one feature at a time, each classification
immediately followed by the `CreateFeature` append for that feature
(lines 169-178); finally every file is synced (lines 180-181). -/
def partitionTrace (parts : List Box) (layerName : String)
    (feats : List (Option Box)) : List Ev :=
  let keys := pyDictKeys (parts.map (partName layerName))
  keys.map Ev.create ++
  ((List.range feats.length).flatMap fun i =>
    Ev.classify i ::
      (match classifyFeature parts layerName (feats.getD i none) with
       | none => []
       | some k => [Ev.write i k])) ++
  keys.map Ev.sync

/-- The tile-count check of the command line (lines 338-339):
`parser.error` aborts the program before any partitioning starts. -/
def argcheck (layers : ℤ) : Except String ℤ :=
  if layers < 1 then Except.error "You must have at least 1 output layer"
  else Except.ok layers

/-- `List.find?` returns the unique element satisfying the predicate. -/
theorem find_eq_of_unique {α : Type} (p : α → Bool) (t : α) :
    ∀ l : List α, t ∈ l → p t = true → (∀ u ∈ l, p u = true → u = t) →
      l.find? p = some t := by
  intro l
  induction l with
  | nil => intro h; cases h
  | cons a l ih =>
    intro ht hp huniq
    by_cases ha : p a = true
    · have hat : a = t := huniq a (List.mem_cons_self a l) ha
      rw [List.find?_cons_of_pos _ ha, hat]
    · rw [List.find?_cons_of_neg _ (by simpa using ha)]
      rcases List.mem_cons.mp ht with h | h
      · exact absurd (h ▸ hp) ha
      · exact ih h hp fun u hu hpu => huniq u (List.mem_cons_of_mem _ hu) hpu

/-- C1: for a non-null geometry, the representative point is the
floor-divided midpoint of the envelope, and classification returns the
identifier of the first tile in declaration order whose half-open bounds
contain it; when exactly one tile's bounds contain it, that tile's
identifier and no other is returned. -/
theorem classify_first_match_unique (parts : List Box) (nm : String)
    (e : Box) (t : Box) :
    (parts.find? (fun u =>
        inTileB u (fdiv (e.minX + e.maxX) 2) (fdiv (e.minY + e.maxY) 2))
        = some t →
      classifyWithLogs parts nm (some e) = (some (partName nm t), [])) ∧
    (t ∈ parts →
     inTileB t (fdiv (e.minX + e.maxX) 2) (fdiv (e.minY + e.maxY) 2) = true →
     (∀ u ∈ parts,
        inTileB u (fdiv (e.minX + e.maxX) 2) (fdiv (e.minY + e.maxY) 2) = true
          → u = t) →
      classifyWithLogs parts nm (some e) = (some (partName nm t), [])) := by
  constructor
  · intro h
    simp [classifyWithLogs, h]
  · intro ht hmem huniq
    have h := find_eq_of_unique _ t parts ht hmem huniq
    simp [classifyWithLogs, h]

/-- Witness for C1 at a concrete scheme and envelope. -/
theorem classify_first_match_unique_witness :
    classifyWithLogs [⟨0, 50, 0, 50⟩, ⟨50, 100, 0, 50⟩] "L"
        (some ⟨5, 15, 5, 15⟩)
      = (some (partName "L" ⟨0, 50, 0, 50⟩), []) :=
  (classify_first_match_unique [⟨0, 50, 0, 50⟩, ⟨50, 100, 0, 50⟩] "L"
      ⟨5, 15, 5, 15⟩ ⟨0, 50, 0, 50⟩).2
    (by decide) (by decide) (by decide)

/-- C3: for requested count 2 the extent is split along the X axis at
the layer's absolute `maxX / 2`, which differs from the midpoint
`(minX + maxX) / 2` whenever `minX` is nonzero. -/
theorem buildParts_two_splits_at_half_maxX (e : Box) :
    buildParts 2 e =
      Except.ok [⟨e.minX, e.maxX / 2, e.minY, e.maxY⟩,
                 ⟨e.maxX / 2, e.maxX, e.minY, e.maxY⟩] ∧
    (e.minX ≠ 0 → e.maxX / 2 ≠ (e.minX + e.maxX) / 2) := by
  constructor
  · simp [buildParts]
  · intro h hq
    exact h (by linarith)

/-- Witness for C3 on extent (3, 10, 0, 5). -/
theorem buildParts_two_splits_at_half_maxX_witness :
    buildParts 2 ⟨3, 10, 0, 5⟩ =
      Except.ok [⟨3, (10 : ℚ) / 2, 0, 5⟩, ⟨(10 : ℚ) / 2, 10, 0, 5⟩] ∧
    (10 : ℚ) / 2 ≠ ((3 : ℚ) + 10) / 2 :=
  ⟨(buildParts_two_splits_at_half_maxX ⟨3, 10, 0, 5⟩).1,
   (buildParts_two_splits_at_half_maxX ⟨3, 10, 0, 5⟩).2 (by norm_num)⟩

/-- C5 counterexample: the fallback branch (lines 133-136) assigns the
unmatched feature to the last tile but logs nothing — the warning the
claim requires is absent. -/
theorem fallback_no_warning_logged :
    List.find? (fun p => inTileB p (fdiv ((20 : ℚ) + 30) 2)
        (fdiv ((20 : ℚ) + 30) 2)) [⟨0, 10, 0, 10⟩] = none ∧
    classifyWithLogs [⟨0, 10, 0, 10⟩] "L" (some ⟨20, 30, 20, 30⟩) =
      (some (partName "L" ⟨0, 10, 0, 10⟩), []) := by decide

/-- C5 amended: a feature with non-null geometry matching no tile is
deterministically assigned to the scheme's last tile (never dropped),
but no warning is logged on this path. -/
theorem classify_fallback_last_tile (parts : List Box) (nm : String)
    (e : Box) (hne : parts ≠ [])
    (h : parts.find? (fun p =>
        inTileB p (fdiv (e.minX + e.maxX) 2) (fdiv (e.minY + e.maxY) 2))
        = none) :
    classifyWithLogs parts nm (some e) =
      (some (partName nm (parts.getLast hne)), []) := by
  simp [classifyWithLogs, h, List.getLast?_eq_getLast parts hne]

/-- Witness for C5's amended theorem. -/
theorem classify_fallback_last_tile_witness :
    classifyWithLogs [⟨0, 10, 0, 10⟩, ⟨10, 20, 0, 10⟩] "L"
        (some ⟨40, 60, 40, 60⟩)
      = (some (partName "L" ⟨10, 20, 0, 10⟩), []) :=
  classify_fallback_last_tile [⟨0, 10, 0, 10⟩, ⟨10, 20, 0, 10⟩] "L"
    ⟨40, 60, 40, 60⟩ (by decide) (by decide)

/-- C6: a feature with null geometry yields the warning diagnostic and
the unassigned marker, and its index is in no output bucket. -/
theorem null_geometry_unassigned (parts : List Box) (nm : String)
    (feats : List (Option Box)) (i : ℕ) (key : String)
    (h : feats.getD i none = none) :
    classifyWithLogs parts nm none = (none, ["Found a NULL geometry"]) ∧
    i ∉ layerBuckets parts nm feats key := by
  refine ⟨rfl, fun hmem => ?_⟩
  have hcl := (List.mem_filter.mp hmem).2
  rw [h] at hcl
  simp [classifyFeature, classifyWithLogs] at hcl

/-- Witness for C6: feature 1 has a null geometry and is in no bucket. -/
theorem null_geometry_unassigned_witness :
    classifyWithLogs [⟨0, 10, 0, 10⟩] "L" none =
      (none, ["Found a NULL geometry"]) ∧
    1 ∉ layerBuckets [⟨0, 10, 0, 10⟩] "L" [some ⟨2, 4, 2, 4⟩, none]
        "L:0-10-0-10" :=
  null_geometry_unassigned [⟨0, 10, 0, 10⟩] "L" [some ⟨2, 4, 2, 4⟩, none] 1
    "L:0-10-0-10" (by decide)

/-- C7 counterexample: called directly with count 0, the builder hits a
division by zero, not an InvalidConfiguration failure; with count -2 it
even succeeds with an empty scheme.  The `< 1` guard is the command-line
check. -/
theorem buildParts_zero_count_zero_division :
    buildParts 0 ⟨0, 100, 0, 100⟩ = Except.error "ZeroDivisionError" ∧
    buildParts (-2) ⟨0, 100, 0, 100⟩ = Except.ok [] ∧
    argcheck 0 = Except.error "You must have at least 1 output layer" := by
  decide

/-- C7 amended: for count < 1 the program refuses to start at the CLI
check; the builder itself, if invoked, raises ZeroDivisionError for
count 0 or -1 and returns an empty scheme for count ≤ -2. -/
theorem count_check_in_cli_not_builder (n : ℤ) (e : Box) (hn : n < 1) :
    argcheck n = Except.error "You must have at least 1 output layer" ∧
    ((n = 0 ∨ n = -1) → buildParts n e = Except.error "ZeroDivisionError") ∧
    (n ≤ -2 → buildParts n e = Except.ok []) := by
  refine ⟨by simp [argcheck, hn], ?_, ?_⟩
  · rintro (rfl | rfl)
    · have h0 : (⌈((0 : ℤ) : ℚ) / 2⌉ : ℤ) = 0 := by decide
      simp [buildParts, h0]
    · have h1 : (⌈((-1 : ℤ) : ℚ) / 2⌉ : ℤ) = 0 := by decide
      simp only [buildParts, h1]
      norm_num
  · intro h2
    have hc : (⌈(n : ℚ) / 2⌉ : ℤ) ≤ -1 := by
      have hq : (n : ℚ) ≤ -2 := by exact_mod_cast h2
      have hd : (n : ℚ) / 2 ≤ ((-1 : ℤ) : ℚ) := by push_cast; linarith
      exact Int.ceil_le.mpr hd
    have hf : (⌊(n : ℚ) / 2⌋ : ℤ) ≤ -1 := le_trans (Int.floor_le_ceil _) hc
    have hn1 : n ≠ 1 := by omega
    have hn2 : n ≠ 2 := by omega
    have hcz : (⌈(n : ℚ) / 2⌉ : ℤ) ≠ 0 := by omega
    have hfz : (⌊(n : ℚ) / 2⌋ : ℤ) ≠ 0 := by omega
    have hct : (⌈(n : ℚ) / 2⌉ : ℤ).toNat = 0 := Int.toNat_of_nonpos (by omega)
    have hft : (⌊(n : ℚ) / 2⌋ : ℤ).toNat = 0 := Int.toNat_of_nonpos (by omega)
    simp [buildParts, hn1, hn2, hcz, hfz, hct, hft]

/-- Witness for C7's amended theorem at count -2. -/
theorem count_check_in_cli_not_builder_witness :
    argcheck (-2) = Except.error "You must have at least 1 output layer" ∧
    (((-2 : ℤ) = 0 ∨ (-2 : ℤ) = -1) →
      buildParts (-2) ⟨0, 100, 0, 100⟩ = Except.error "ZeroDivisionError") ∧
    ((-2 : ℤ) ≤ -2 → buildParts (-2) ⟨0, 100, 0, 100⟩ = Except.ok []) :=
  count_check_in_cli_not_builder (-2) ⟨0, 100, 0, 100⟩ (by decide)

/-- C8: when the target directory already exists, `Layer.partition`
returns zero tile identifiers, logs the error, and leaves the file
system untouched. -/
theorem partition_aborts_on_existing_dir (lay : OgrLayer)
    (p : LatLonPartition) (dirName : String) (fs : FS)
    (h : dirName ∈ fs.dirs) :
    Layer_partition lay p dirName fs =
      Except.ok ([], fs, [dirName ++ " already exists"]) := by
  simp [Layer_partition, h]

/-- Witness for C8 on a concrete pre-existing directory. -/
theorem partition_aborts_on_existing_dir_witness :
    Layer_partition ⟨"L", ⟨0, 10, 0, 10⟩, []⟩ ⟨4, none, none⟩ "out/a"
        ⟨["out/a"], [("keep", [0])]⟩ =
      Except.ok ([], ⟨["out/a"], [("keep", [0])]⟩,
        ["out/a" ++ " already exists"]) :=
  partition_aborts_on_existing_dir ⟨"L", ⟨0, 10, 0, 10⟩, []⟩ ⟨4, none, none⟩
    "out/a" ⟨["out/a"], [("keep", [0])]⟩ (by decide)

/-- C9: `create_partitions` is idempotent — a second call on the state
produced by a first successful call returns that state unchanged (the
memoized tiles are returned without rebuilding). -/
theorem create_partitions_idempotent (p q : LatLonPartition)
    (h : create_partitions p = Except.ok q) :
    create_partitions q = Except.ok q := by
  obtain ⟨c, lay, pr⟩ := p
  cases lay with
  | none =>
    simp only [create_partitions] at h
    cases h
    simp [create_partitions]
  | some l =>
    cases pr with
    | some parts =>
      simp only [create_partitions] at h
      cases h
      simp [create_partitions]
    | none =>
      cases hb : buildParts c l.extent with
      | error msg => simp [create_partitions, hb, Except.map] at h
      | ok parts =>
        simp only [create_partitions, hb, Except.map] at h
        cases h
        simp [create_partitions]

/-- Witness for C9: building once then calling again is a no-op. -/
theorem create_partitions_idempotent_witness :
    create_partitions
        ⟨1, some ⟨"L", ⟨0, 10, 0, 10⟩, []⟩, some [⟨0, 10, 0, 10⟩]⟩ =
      Except.ok ⟨1, some ⟨"L", ⟨0, 10, 0, 10⟩, []⟩, some [⟨0, 10, 0, 10⟩]⟩ :=
  create_partitions_idempotent ⟨1, some ⟨"L", ⟨0, 10, 0, 10⟩, []⟩, none⟩
    ⟨1, some ⟨"L", ⟨0, 10, 0, 10⟩, []⟩, some [⟨0, 10, 0, 10⟩]⟩ (by decide)

/-- C10: once the tile scheme is memoized, `set_layer` to a new layer
never invalidates it: the builder returns the old rectangles unchanged,
while tile identifiers and classification use the new layer's name over
the old layer's rectangles. -/
theorem set_layer_keeps_partitions (p : LatLonPartition) (ps : List Box)
    (l2 : OgrLayer) (h : p.partitions = some ps) :
    create_partitions (set_layer p l2) = Except.ok (set_layer p l2) ∧
    layer_names (set_layer p l2) =
      Except.ok (ps.map (partName l2.name), set_layer p l2) ∧
    ∀ env, call_classify (set_layer p l2) env =
      Except.ok (classifyWithLogs ps l2.name env) := by
  have h1 : create_partitions (set_layer p l2) = Except.ok (set_layer p l2) := by
    rw [create_partitions]
    simp [set_layer, h]
  refine ⟨h1, ?_, fun env => ?_⟩
  · rw [layer_names, h1]
    simp [Except.bind, set_layer, h]
  · rw [call_classify, h1]
    simp [Except.bind, set_layer, h]

/-- Witness for C10: after swapping layer A for layer B, the scheme
keeps A's rectangle but renames and classifies under B's name. -/
theorem set_layer_keeps_partitions_witness :
    create_partitions
        (set_layer ⟨4, some ⟨"A", ⟨0, 10, 0, 10⟩, []⟩, some [⟨0, 10, 0, 10⟩]⟩
          ⟨"B", ⟨50, 60, 50, 60⟩, []⟩) =
      Except.ok
        (set_layer ⟨4, some ⟨"A", ⟨0, 10, 0, 10⟩, []⟩, some [⟨0, 10, 0, 10⟩]⟩
          ⟨"B", ⟨50, 60, 50, 60⟩, []⟩) ∧
    layer_names
        (set_layer ⟨4, some ⟨"A", ⟨0, 10, 0, 10⟩, []⟩, some [⟨0, 10, 0, 10⟩]⟩
          ⟨"B", ⟨50, 60, 50, 60⟩, []⟩) =
      Except.ok ([partName "B" ⟨0, 10, 0, 10⟩],
        set_layer ⟨4, some ⟨"A", ⟨0, 10, 0, 10⟩, []⟩, some [⟨0, 10, 0, 10⟩]⟩
          ⟨"B", ⟨50, 60, 50, 60⟩, []⟩) ∧
    call_classify
        (set_layer ⟨4, some ⟨"A", ⟨0, 10, 0, 10⟩, []⟩, some [⟨0, 10, 0, 10⟩]⟩
          ⟨"B", ⟨50, 60, 50, 60⟩, []⟩) (some ⟨1, 3, 1, 3⟩) =
      Except.ok (classifyWithLogs [⟨0, 10, 0, 10⟩] "B" (some ⟨1, 3, 1, 3⟩)) :=
  ⟨(set_layer_keeps_partitions _ [⟨0, 10, 0, 10⟩]
      ⟨"B", ⟨50, 60, 50, 60⟩, []⟩ rfl).1,
   (set_layer_keeps_partitions _ [⟨0, 10, 0, 10⟩]
      ⟨"B", ⟨50, 60, 50, 60⟩, []⟩ rfl).2.1,
   (set_layer_keeps_partitions _ [⟨0, 10, 0, 10⟩]
      ⟨"B", ⟨50, 60, 50, 60⟩, []⟩ rfl).2.2 (some ⟨1, 3, 1, 3⟩)⟩

/-- For any integer, the ceiling and the floor of its half sum to it. -/
theorem ceil_add_floor_half (m : ℤ) :
    (⌈(m : ℚ) / 2⌉ : ℤ) + ⌊(m : ℚ) / 2⌋ = m := by
  rcases Int.even_or_odd m with ⟨k, hk⟩ | ⟨k, hk⟩
  · subst hk
    have hq : ((k + k : ℤ) : ℚ) / 2 = (k : ℚ) := by push_cast; ring
    rw [hq, Int.ceil_intCast, Int.floor_intCast]
  · subst hk
    have hq : ((2 * k + 1 : ℤ) : ℚ) / 2 = 1 / 2 + (k : ℚ) := by push_cast; ring
    rw [hq, Int.ceil_add_int, Int.floor_add_int]
    have hc : (⌈(1 / 2 : ℚ)⌉ : ℤ) = 1 := by decide
    have hf : (⌊(1 / 2 : ℚ)⌋ : ℤ) = 0 := by decide
    rw [hc, hf]
    ring

/-- C2: `buildParts` produces 1 tile for count 1, 2 tiles for count 2,
and for count n ≥ 3 exactly ceil(n/2) + floor(n/2) = n tiles: the first
ceil(n/2) tiles span Y from minY to the floor-based Y midpoint with
column width floor((maxX-minX)/ceil(n/2)), the remaining floor(n/2)
tiles span Y from that midpoint to maxY with column width
floor((maxX-minX)/floor(n/2)). -/
theorem buildParts_count_structure (n : ℤ) (e : Box) (hn : 1 ≤ n) :
    ∃ parts : List Box, buildParts n e = Except.ok parts ∧
      (n = 1 → parts = [e]) ∧
      (n = 2 → parts.length = 2) ∧
      (3 ≤ n →
        (⌈(n : ℚ) / 2⌉ : ℤ) + ⌊(n : ℚ) / 2⌋ = n ∧
        parts.length = n.toNat ∧
        ∀ i : ℕ, ∀ hi : i < parts.length,
          (i < (⌈(n : ℚ) / 2⌉ : ℤ).toNat →
            parts[i].minY = e.minY ∧
            parts[i].maxY = fdiv (e.maxY - e.minY) 2 + e.minY ∧
            parts[i].maxX - parts[i].minX =
              ((⌊(e.maxX - e.minX) / ((⌈(n : ℚ) / 2⌉ : ℤ) : ℚ)⌋ : ℤ) : ℚ)) ∧
          ((⌈(n : ℚ) / 2⌉ : ℤ).toNat ≤ i →
            parts[i].minY = fdiv (e.maxY - e.minY) 2 + e.minY ∧
            parts[i].maxY = e.maxY ∧
            parts[i].maxX - parts[i].minX =
              ((⌊(e.maxX - e.minX) / ((⌊(n : ℚ) / 2⌋ : ℤ) : ℚ)⌋ : ℤ) : ℚ))) := by
  by_cases hn1 : n = 1
  · subst hn1
    exact ⟨[e], by simp [buildParts], fun _ => rfl,
      fun h => by omega, fun h => by omega⟩
  by_cases hn2 : n = 2
  · subst hn2
    exact ⟨[⟨e.minX, e.maxX / 2, e.minY, e.maxY⟩,
            ⟨e.maxX / 2, e.maxX, e.minY, e.maxY⟩],
      by simp [buildParts], fun h => by omega, fun _ => rfl,
      fun h => by omega⟩
  have hn3 : 3 ≤ n := by omega
  have ht2 : 2 ≤ (⌈(n : ℚ) / 2⌉ : ℤ) := by
    rw [Int.le_ceil_iff]
    push_cast
    have : (3 : ℚ) ≤ (n : ℚ) := by exact_mod_cast hn3
    linarith
  have hb1 : 1 ≤ (⌊(n : ℚ) / 2⌋ : ℤ) := by
    rw [Int.le_floor]
    push_cast
    have : (3 : ℚ) ≤ (n : ℚ) := by exact_mod_cast hn3
    linarith
  have h3 : ¬ (⌈(n : ℚ) / 2⌉ : ℤ) = 0 := by omega
  have h4 : ¬ (⌊(n : ℚ) / 2⌋ : ℤ) = 0 := by omega
  have htb := ceil_add_floor_half n
  refine ⟨((List.range (⌈(n : ℚ) / 2⌉ : ℤ).toNat).map fun x : ℕ =>
      (⟨e.minX + (x : ℚ) *
          ((⌊(e.maxX - e.minX) / ((⌈(n : ℚ) / 2⌉ : ℤ) : ℚ)⌋ : ℤ) : ℚ),
        e.minX + ((⌊(e.maxX - e.minX) / ((⌈(n : ℚ) / 2⌉ : ℤ) : ℚ)⌋ : ℤ) : ℚ)
          * ((x : ℚ) + 1),
        e.minY, fdiv (e.maxY - e.minY) 2 + e.minY⟩ : Box)) ++
     ((List.range (⌊(n : ℚ) / 2⌋ : ℤ).toNat).map fun x : ℕ =>
      (⟨e.minX + (x : ℚ) *
          ((⌊(e.maxX - e.minX) / ((⌊(n : ℚ) / 2⌋ : ℤ) : ℚ)⌋ : ℤ) : ℚ),
        e.minX + ((⌊(e.maxX - e.minX) / ((⌊(n : ℚ) / 2⌋ : ℤ) : ℚ)⌋ : ℤ) : ℚ)
          * ((x : ℚ) + 1),
        fdiv (e.maxY - e.minY) 2 + e.minY, e.maxY⟩ : Box)),
    ?_, fun h => by omega, fun h => by omega, fun _ => ⟨htb, ?_, ?_⟩⟩
  · simp only [buildParts, if_neg hn1, if_neg hn2, if_neg h3, if_neg h4]
  · simp only [List.length_append, List.length_map, List.length_range]
    omega
  · intro i hi
    simp only [List.length_append, List.length_map, List.length_range] at hi
    constructor
    · intro htop
      have hiA : i < ((List.range (⌈(n : ℚ) / 2⌉ : ℤ).toNat).map fun x : ℕ =>
          (⟨e.minX + (x : ℚ) *
              ((⌊(e.maxX - e.minX) / ((⌈(n : ℚ) / 2⌉ : ℤ) : ℚ)⌋ : ℤ) : ℚ),
            e.minX +
              ((⌊(e.maxX - e.minX) / ((⌈(n : ℚ) / 2⌉ : ℤ) : ℚ)⌋ : ℤ) : ℚ)
              * ((x : ℚ) + 1),
            e.minY, fdiv (e.maxY - e.minY) 2 + e.minY⟩ : Box)).length := by
        simpa using htop
      rw [List.getElem_append_left hiA, List.getElem_map, List.getElem_range]
      exact ⟨rfl, rfl, by ring⟩
    · intro hbot
      have hiA : ((List.range (⌈(n : ℚ) / 2⌉ : ℤ).toNat).map fun x : ℕ =>
          (⟨e.minX + (x : ℚ) *
              ((⌊(e.maxX - e.minX) / ((⌈(n : ℚ) / 2⌉ : ℤ) : ℚ)⌋ : ℤ) : ℚ),
            e.minX +
              ((⌊(e.maxX - e.minX) / ((⌈(n : ℚ) / 2⌉ : ℤ) : ℚ)⌋ : ℤ) : ℚ)
              * ((x : ℚ) + 1),
            e.minY, fdiv (e.maxY - e.minY) 2 + e.minY⟩ : Box)).length ≤ i := by
        simpa using hbot
      rw [List.getElem_append_right hiA, List.getElem_map, List.getElem_range]
      exact ⟨rfl, rfl, by ring⟩

/-- Witness for C2 at count 4 on extent (0, 100, 0, 100). -/
theorem buildParts_count_structure_witness :
    ∃ parts : List Box, buildParts 4 ⟨0, 100, 0, 100⟩ = Except.ok parts ∧
      ((4 : ℤ) = 1 → parts = [⟨0, 100, 0, 100⟩]) ∧
      ((4 : ℤ) = 2 → parts.length = 2) ∧
      ((3 : ℤ) ≤ 4 →
        (⌈((4 : ℤ) : ℚ) / 2⌉ : ℤ) + ⌊((4 : ℤ) : ℚ) / 2⌋ = 4 ∧
        parts.length = (4 : ℤ).toNat ∧
        ∀ i : ℕ, ∀ hi : i < parts.length,
          (i < (⌈((4 : ℤ) : ℚ) / 2⌉ : ℤ).toNat →
            parts[i].minY = 0 ∧
            parts[i].maxY = fdiv ((100 : ℚ) - 0) 2 + 0 ∧
            parts[i].maxX - parts[i].minX =
              ((⌊((100 : ℚ) - 0) / ((⌈((4 : ℤ) : ℚ) / 2⌉ : ℤ) : ℚ)⌋ : ℤ) : ℚ)) ∧
          ((⌈((4 : ℤ) : ℚ) / 2⌉ : ℤ).toNat ≤ i →
            parts[i].minY = fdiv ((100 : ℚ) - 0) 2 + 0 ∧
            parts[i].maxY = 100 ∧
            parts[i].maxX - parts[i].minX =
              ((⌊((100 : ℚ) - 0) / ((⌊((4 : ℤ) : ℚ) / 2⌋ : ℤ) : ℚ)⌋ : ℤ) : ℚ))) :=
  buildParts_count_structure 4 ⟨0, 100, 0, 100⟩ (by decide)

/-- A block of a `flatMap` over `List.range` is an infix of the whole. -/
theorem range_flatMap_isInfix {α : Type} (f : ℕ → List α) (i n : ℕ)
    (h : i < n) : List.IsInfix (f i) ((List.range n).flatMap f) := by
  induction n with
  | zero => omega
  | succ m ih =>
    rw [List.range_succ, List.flatMap_append]
    by_cases him : i < m
    · obtain ⟨s, t, hst⟩ := ih him
      refine ⟨s, t ++ [m].flatMap f, ?_⟩
      simp only [← List.append_assoc]
      rw [hst]
    · have him2 : i = m := by omega
      subst him2
      refine ⟨(List.range i).flatMap f, [], ?_⟩
      simp

/-- C4 counterexample: with two features in one tile, the trace of
`Layer.partition` appends feature 0 to the output file before feature 1
is classified — classification and writing are interleaved per feature,
not two separate phases. -/
theorem write_before_classify_complete :
    partitionTrace [⟨0, 100, 0, 100⟩] "L"
        [some ⟨0, 20, 0, 20⟩, some ⟨0, 20, 0, 20⟩] =
      [Ev.create (partName "L" ⟨0, 100, 0, 100⟩),
       Ev.classify 0, Ev.write 0 (partName "L" ⟨0, 100, 0, 100⟩),
       Ev.classify 1, Ev.write 1 (partName "L" ⟨0, 100, 0, 100⟩),
       Ev.sync (partName "L" ⟨0, 100, 0, 100⟩)] := by decide

/-- C4 amended: within one layer's pass each feature's `CreateFeature`
append happens immediately after that same feature's classification
(writes are interleaved with classification), and only the per-tile
`SyncToDisk` flushes happen after classification of all features. -/
theorem partition_interleaves_writes_syncs_last (parts : List Box)
    (nm : String) (feats : List (Option Box)) :
    (∀ i k, i < feats.length →
      classifyFeature parts nm (feats.getD i none) = some k →
      List.IsInfix [Ev.classify i, Ev.write i k]
        (partitionTrace parts nm feats)) ∧
    (∀ i k, i < feats.length →
      Ev.sync k ∈ partitionTrace parts nm feats →
      ∃ l1 l2, partitionTrace parts nm feats = l1 ++ l2 ∧
        Ev.classify i ∈ l1 ∧ Ev.sync k ∈ l2) := by
  constructor
  · intro i k hi hcl
    obtain ⟨s, t, hst⟩ := range_flatMap_isInfix
      (fun j => Ev.classify j ::
        (match classifyFeature parts nm (feats.getD j none) with
         | none => []
         | some k2 => [Ev.write j k2])) i feats.length hi
    simp only [hcl] at hst
    refine ⟨(pyDictKeys (parts.map (partName nm))).map Ev.create ++ s,
            t ++ (pyDictKeys (parts.map (partName nm))).map Ev.sync, ?_⟩
    simp only [partitionTrace, ← hst, List.append_assoc]
  · intro i k hi hsync
    refine ⟨(pyDictKeys (parts.map (partName nm))).map Ev.create ++
        (List.range feats.length).flatMap (fun j => Ev.classify j ::
          (match classifyFeature parts nm (feats.getD j none) with
           | none => []
           | some k2 => [Ev.write j k2])),
      (pyDictKeys (parts.map (partName nm))).map Ev.sync, rfl, ?_, ?_⟩
    · apply List.mem_append_right
      exact List.mem_flatMap.mpr
        ⟨i, List.mem_range.mpr hi, List.mem_cons_self _ _⟩
    · simp only [partitionTrace] at hsync
      rcases List.mem_append.mp hsync with hin | hin
      · exfalso
        rcases List.mem_append.mp hin with h1 | h2
        · obtain ⟨k2, _, habs⟩ := List.mem_map.mp h1
          cases habs
        · obtain ⟨j, _, hmem⟩ := List.mem_flatMap.mp h2
          rcases hcf : classifyFeature parts nm (feats.getD j none) with _ | k2
            <;> rw [hcf] at hmem <;> simp at hmem
      · exact hin

/-- Witness for C4's amended theorem on a one-feature layer. -/
theorem partition_interleaves_writes_syncs_last_witness :
    List.IsInfix
      [Ev.classify 0, Ev.write 0 (partName "L" ⟨0, 100, 0, 100⟩)]
      (partitionTrace [⟨0, 100, 0, 100⟩] "L" [some ⟨0, 20, 0, 20⟩]) ∧
    ∃ l1 l2,
      partitionTrace [⟨0, 100, 0, 100⟩] "L" [some ⟨0, 20, 0, 20⟩]
        = l1 ++ l2 ∧
      Ev.classify 0 ∈ l1 ∧
      Ev.sync (partName "L" ⟨0, 100, 0, 100⟩) ∈ l2 :=
  ⟨(partition_interleaves_writes_syncs_last [⟨0, 100, 0, 100⟩] "L"
      [some ⟨0, 20, 0, 20⟩]).1 0 (partName "L" ⟨0, 100, 0, 100⟩)
      (by decide) (by decide),
   (partition_interleaves_writes_syncs_last [⟨0, 100, 0, 100⟩] "L"
      [some ⟨0, 20, 0, 20⟩]).2 0 (partName "L" ⟨0, 100, 0, 100⟩)
      (by decide) (by decide)⟩

end EcoGis
